import Mathlib

/-
Verification of `stickerpack.py` (the `adhesive` package): a shallow
embedding of the `StickerPack` class and its collaborators (the PIL image
codec and the `zipfile` archive writer), together with proofs about the
embedded operations.

Modelling conventions:
* Python `bytes` values are lists of byte values (`List Nat`).
* The image codec (PIL) is an explicit capability `Codec Pix`, parametrised
  by the type `Pix` of decoded pixel data; `Image.open`, `Image.resize` and
  `Image.save` are embedded on top of it.  Two facts of the Pillow library
  that the embedded code depends on are baked into the embedding and
  documented at the definitions that use them: the `format` attribute is
  set only on images created by `Image.open` (derived images, in particular
  the results of `resize`, carry `format = None`), and `Image.save` with a
  file object writes at the current stream position without truncating.
* Methods that can raise are embedded as `Except`-valued functions in
  state-passing style; `StickerPackError` is the single exception class the
  module defines, and codec failures (for example
  `PIL.UnidentifiedImageError`) are a separate propagated error.
-/

set_option autoImplicit false

namespace Adhesive

/-- Raw byte strings, as Python `bytes`; each element is one byte value. -/
abbrev Bytes : Type := List Nat

/-- `REQUIRED_FIELDS` from the source (declared, never consulted). -/
def REQUIRED_FIELDS : List String := [("name"), ("identifier"), ("publisher")]

/-- `STICKER_MAX_SIZE = 100 * 1024` (declared, never consulted). -/
def STICKER_MAX_SIZE : Nat := 100 * 1024

/-- `TRAY_MAX_SIZE = 50 * 1024` (declared, never consulted). -/
def TRAY_MAX_SIZE : Nat := 50 * 1024

/-- `STICKER_MAX_PIXELS = (512, 512)`. -/
def STICKER_MAX_PIXELS : Nat × Nat := (512, 512)

/-- `TRAY_MAX_PIXELS = (96, 96)`. -/
def TRAY_MAX_PIXELS : Nat × Nat := (96, 96)

/-- `STICKERS_PER_PACK = (3, 30)`: declared min and max sticker count. -/
def STICKERS_PER_PACK : Nat × Nat := (3, 30)

/-- `STRING_MAX_LEN = 128` (declared, never consulted). -/
def STRING_MAX_LEN : Nat := 128

/-- `EMOJI_MAX = 3` (declared, never consulted). -/
def EMOJI_MAX : Nat := 3

/-- The `StickerPackError` exception class: it adds nothing to `Exception`,
so a raised instance is characterised by its message alone. -/
structure StickerPackError where
  msg : String
deriving DecidableEq, Repr

/-- An error surfaced by a `StickerPack` method: either a raised
`StickerPackError`, or an error propagated from the image codec (such as
`PIL.UnidentifiedImageError` out of `Image.open`). -/
inductive Err where
  | pack (e : StickerPackError)
  | codec
deriving DecidableEq, Repr

/-- A decoded image as returned by `PIL.Image.open`: the pixel size, the
detected format name (`Image.open` always records the format it detected),
and the decoded pixel data. -/
structure DecodedImage (Pix : Type) where
  width : Nat
  height : Nat
  format : String
  pix : Pix
deriving DecidableEq, Repr

/-- An in-memory PIL image object.  `width`/`height` are the components of
`Image.size`; `format` is the `Image.format` attribute, which is `some f`
exactly for images created by `Image.open` and `none` for images the
library derives from them; `pix` is the loaded pixel data. -/
structure Image (Pix : Type) where
  width : Nat
  height : Nat
  format : Option String
  pix : Pix
deriving DecidableEq, Repr

/-- The external image codec capability (PIL): `decode` is the work behind
`Image.open` (`none` models a raised `UnidentifiedImageError`), `resizePix`
the pixel resampling behind `Image.resize`, and `encode` the encoder behind
`Image.save` for a given target format name. -/
structure Codec (Pix : Type) where
  decode : Bytes → Option (DecodedImage Pix)
  resizePix : Pix → Nat → Nat → Pix
  encode : Pix → String → Bytes

/-- `PIL.Image.open` over the codec capability: on success the resulting
image object carries the detected format in its `format` attribute. -/
def openImage {Pix : Type} (c : Codec Pix) (b : Bytes) : Option (Image Pix) :=
  (c.decode b).map fun d => ⟨d.width, d.height, some d.format, d.pix⟩

/-- `PIL.Image.resize`: returns a new image of exactly the requested size.
The new object is created by the library, not by `Image.open`, so its
`format` attribute is `none` (Pillow documents that `format` is set only on
images read from a file). -/
def Image.resize {Pix : Type} (c : Codec Pix) (img : Image Pix) (size : Nat × Nat) :
    Image Pix :=
  ⟨size.1, size.2, none, c.resizePix img.pix size.1 size.2⟩

/-- `PIL.Image.save` to a fresh sink: the bytes the encoder produces for the
loaded pixel data in the requested format. -/
def Image.save {Pix : Type} (c : Codec Pix) (img : Image Pix) (fmt : String) : Bytes :=
  c.encode img.pix fmt

/-- The `StickerPack` aggregate.  `tray_image_buf` is the value
(`getvalue()`) of the `io.BytesIO` buffer stored in `self.tray_image_buf`
once construction has finished. -/
structure StickerPack (Pix : Type) where
  name : String
  author : String
  stickers : List (Image Pix)
  tray_image_buf : Bytes
deriving DecidableEq, Repr

/-- `StickerPack.__init__`.  The guard `not (name and author)` is Python
truthiness on strings: it fires exactly when `name` or `author` is the
empty string.  The tray image is decoded from the buffer, resized to
`TRAY_MAX_PIXELS` when its size differs, and then saved as PNG *into the
same `BytesIO` buffer that still holds the original bytes*: loading the
image leaves the stream position at the end of the encoded data, and
`Image.save` on a file object writes at the current position without
seeking or truncating, so the PNG re-encoding is appended after the
original bytes and `getvalue()` returns their concatenation. -/
def StickerPack.init {Pix : Type} (c : Codec Pix) (name author : String)
    (tray_image : Bytes) : Except Err (StickerPack Pix) :=
  if name = "" ∨ author = "" then
    .error (.pack ⟨"blank names are not allowed"⟩)
  else
    match openImage c tray_image with
    | none => .error .codec
    | some img =>
        .ok ⟨name, author, [],
          tray_image ++
            (if (img.width, img.height) ≠ TRAY_MAX_PIXELS
              then img.resize c TRAY_MAX_PIXELS
              else img).save c ("PNG")⟩

/-- `StickerPack.add_sticker`.  The capacity guard
`not len(self.stickers) <= STICKERS_PER_PACK[1]` runs before any decoding;
past it, the image is decoded, resized to `STICKER_MAX_PIXELS` when its
size differs (which, per `Image.resize`, clears the `format` attribute),
and the resulting image object is appended to `self.stickers`. -/
def StickerPack.add_sticker {Pix : Type} (c : Codec Pix) (p : StickerPack Pix)
    (image_data : Bytes) : Except Err (StickerPack Pix) :=
  if ¬ p.stickers.length ≤ STICKERS_PER_PACK.2 then
    .error (.pack ⟨"too many stickers"⟩)
  else
    match openImage c image_data with
    | none => .error .codec
    | some img =>
        .ok { p with
          stickers := p.stickers ++
            [if (img.width, img.height) ≠ STICKER_MAX_PIXELS
              then img.resize c STICKER_MAX_PIXELS
              else img] }

/-- `zipfile.ZIP_DEFLATED`. -/
def ZIP_DEFLATED : Nat := 8

/-- The content of one archive member.  `ZipFile.writestr` called with a
`str` stores the UTF-8 encoding of the text, which reading the member back
and decoding recovers, so text members are kept as the text itself; image
members hold raw bytes. -/
inductive EntryData where
  | text (s : String)
  | bytes (b : Bytes)
deriving DecidableEq, Repr

/-- One archive member: its name, its content, and the compression method
it was written with. -/
structure Entry where
  name : String
  data : EntryData
  compress_type : Nat
deriving DecidableEq, Repr

/-- A zip archive opened for writing: the compression method passed to the
`zipfile.ZipFile` constructor, and the members written so far, in order. -/
structure ZipFile where
  compression : Nat
  entries : List Entry
deriving DecidableEq, Repr

/-- Writing one member, either via `ZipFile.writestr` or via
`ZipFile.open(name, "w")`: both create the member with the archive-level
compression method (`ZipInfo.compress_type` defaults to
`ZipFile.compression` on both paths) and append it to the archive. -/
def ZipFile.writeEntry (zf : ZipFile) (name : String) (d : EntryData) : ZipFile :=
  { zf with entries := zf.entries ++ [⟨name, d, zf.compression⟩] }

/-- The export-time format choice for one sticker:
`sticker.format not in ["PNG", "WEBP"]` falls back to `"PNG"`; a `format`
attribute of `None` (any resized sticker) is not in that list, so it also
falls back to `"PNG"`. -/
def pickFormat (fmt : Option String) : String :=
  match fmt with
  | some f => if f = "PNG" ∨ f = "WEBP" then f else "PNG"
  | none => "PNG"

/-- Python `str.lower` on the format names in play (ASCII strings), as a
structural map over the characters. -/
def strLower (s : String) : String := ⟨s.data.map Char.toLower⟩

/-- The export loop `for count, sticker in enumerate(self.stickers, start=1)`:
each sticker is saved in its chosen format to a member named
`"{count}.{sticker_format.lower()}"`. -/
def writeStickers {Pix : Type} (c : Codec Pix) : ZipFile → List (Image Pix) → Nat → ZipFile
  | zf, [], _ => zf
  | zf, sticker :: rest, count =>
      writeStickers c
        (zf.writeEntry (toString count ++ "." ++ strLower (pickFormat sticker.format))
          (.bytes (sticker.save c (pickFormat sticker.format))))
        rest (count + 1)

/-- `StickerPack.export`: opens the archive for writing with
`compression=ZIP_DEFLATED`, writes `author.txt` (the author text),
`title.txt` (the pack name), `0.png` (the value of the tray image buffer),
and then the numbered sticker members in insertion order. -/
def exportPack {Pix : Type} (c : Codec Pix) (p : StickerPack Pix) : ZipFile :=
  writeStickers c
    ((((⟨ZIP_DEFLATED, []⟩ : ZipFile).writeEntry ("author.txt") (.text p.author)).writeEntry
        ("title.txt") (.text p.name)).writeEntry
        ("0.png") (.bytes p.tray_image_buf))
    p.stickers 1

/-- The export method in state-passing form: the archive it produces
together with the post-call pack state.  The Python method body assigns no
attribute of `self`, so the state it hands back is the receiver itself. -/
def exportTo {Pix : Type} (c : Codec Pix) (p : StickerPack Pix) :
    ZipFile × StickerPack Pix :=
  (exportPack c p, p)

/-- Iterated `add_sticker`, as a caller adding stickers one at a time and
stopping at the first raised exception. -/
def addAll {Pix : Type} (c : Codec Pix) : StickerPack Pix → List Bytes → Except Err (StickerPack Pix)
  | p, [] => .ok p
  | p, b :: rest =>
      match p.add_sticker c b with
      | .ok q => addAll c q rest
      | .error e => .error e

/-- Specification-side closed form of the members the export loop writes
from counter value `count` on, with compression method `comp`. -/
def stickerEntryList {Pix : Type} (c : Codec Pix) (comp : Nat) :
    Nat → List (Image Pix) → List Entry
  | _, [] => []
  | count, sticker :: rest =>
      ⟨toString count ++ "." ++ strLower (pickFormat sticker.format),
        .bytes (sticker.save c (pickFormat sticker.format)), comp⟩ ::
        stickerEntryList c comp (count + 1) rest

/-! ### A concrete codec for evaluating the embedded code -/

/-- Pixel data of the evaluation codec: width, height and a payload. -/
abbrev TestPix : Type := Nat × Nat × List Nat

/-- Format name for a format code in an encoded test stream. -/
def formatName (f : Nat) : String :=
  if f = 0 then "PNG" else if f = 1 then "WEBP" else "JPEG"

/-- Format code used by the test encoder for a format name. -/
def formatCode (f : String) : Nat :=
  if f = "PNG" then 0 else if f = "WEBP" then 1 else 2

/-- A concrete codec for evaluation: an encoded stream is
`[format, width, height, n]` followed by `n` payload bytes.  As with real
container formats such as PNG, the decoder consumes the encoded stream and
ignores any trailing bytes (`Image.open` decodes a PNG with data after the
`IEND` chunk to the image the stream starts with). -/
def testCodec : Codec TestPix where
  decode b :=
    match b with
    | f :: w :: h :: n :: rest =>
        if n ≤ rest.length then some ⟨w, h, formatName f, (w, h, rest.take n)⟩ else none
    | _ => none
  resizePix p w h := (w, h, p.2.2)
  encode p fmt := formatCode fmt :: p.1 :: p.2.1 :: p.2.2.length :: p.2.2

/-- A codec whose decoder rejects every input (used to observe that a code
path never consults the codec). -/
def failCodec : Codec TestPix where
  decode _ := none
  resizePix p _ _ := p
  encode _ _ := []

/-- A 200 by 200 PNG stream for the test codec. -/
def tray200 : Bytes := [0, 200, 200, 0]

/-- A 512 by 512 PNG stream for the test codec. -/
def png512s : Bytes := [0, 512, 512, 0]

/-- A 300 by 300 WEBP stream for the test codec. -/
def webp300 : Bytes := [1, 300, 300, 0]

/-- A 64 by 64 PNG stream for the test codec. -/
def png64 : Bytes := [0, 64, 64, 0]

/-- A pack with no stickers and an empty tray buffer, built directly. -/
def emptyPack : StickerPack TestPix := ⟨("Cats"), ("Alice"), [], []⟩

/-- The pack obtained from `emptyPack` by adding the `webp300` sticker:
the 300 by 300 image is resized to 512 by 512, which clears its format. -/
def pack1 : StickerPack TestPix :=
  ⟨("Cats"), ("Alice"), [⟨512, 512, none, (512, 512, [])⟩], []⟩

/-- A pack already holding 31 stickers (one more than
`STICKERS_PER_PACK[1]`), the most `add_sticker` can be driven to. -/
def fullPack : StickerPack TestPix :=
  ⟨("Cats"), ("Alice"), List.replicate 31 ⟨512, 512, none, (512, 512, [])⟩, []⟩

/-- The pack produced by constructing with name `Cats`, author `Alice` and
the `tray200` tray image: the buffer holds the original bytes followed by
the appended 96 by 96 PNG re-encoding. -/
def trayPack : StickerPack TestPix :=
  ⟨("Cats"), ("Alice"), [], tray200 ++ [0, 96, 96, 0]⟩

/-- The scenario of the specification: construct with name `Cats`, author
`Alice` and a 200 by 200 PNG tray image, then add a 512 by 512 PNG, a
300 by 300 WEBP and a 64 by 64 PNG sticker. -/
def scenarioPack : Except Err (StickerPack TestPix) := do
  let p ← StickerPack.init testCodec ("Cats") ("Alice") tray200
  let p ← p.add_sticker testCodec png512s
  let p ← p.add_sticker testCodec webp300
  p.add_sticker testCodec png64

/-! ### Helper lemmas -/

/-- The capacity guard: a pack already holding more than
`STICKERS_PER_PACK[1]` stickers makes `add_sticker` raise before anything
else happens. -/
theorem add_sticker_capacity {Pix : Type} (c : Codec Pix) (p : StickerPack Pix)
    (data : Bytes) (h : STICKERS_PER_PACK.2 < p.stickers.length) :
    p.add_sticker c data = .error (.pack ⟨"too many stickers"⟩) := by
  unfold StickerPack.add_sticker
  rw [if_pos (by omega)]

/-- Past the capacity guard, an undecodable input makes `add_sticker`
propagate the codec error. -/
theorem add_sticker_decode_none {Pix : Type} (c : Codec Pix) (p : StickerPack Pix)
    (data : Bytes) (hlen : p.stickers.length ≤ STICKERS_PER_PACK.2)
    (hd : c.decode data = none) :
    p.add_sticker c data = .error .codec := by
  unfold StickerPack.add_sticker openImage
  rw [if_neg (by omega), hd]
  rfl

/-- Past the capacity guard, a decodable input makes `add_sticker` succeed
and append exactly the decoded image, resized when its size differs from
`STICKER_MAX_PIXELS`. -/
theorem add_sticker_ok {Pix : Type} (c : Codec Pix) (p : StickerPack Pix)
    (data : Bytes) (d : DecodedImage Pix)
    (hlen : p.stickers.length ≤ STICKERS_PER_PACK.2)
    (hd : c.decode data = some d) :
    p.add_sticker c data =
      .ok { p with
        stickers := p.stickers ++
          [if (d.width, d.height) ≠ STICKER_MAX_PIXELS
            then (⟨d.width, d.height, some d.format, d.pix⟩ : Image Pix).resize c
              STICKER_MAX_PIXELS
            else ⟨d.width, d.height, some d.format, d.pix⟩] } := by
  unfold StickerPack.add_sticker openImage
  rw [if_neg (by omega), hd]
  rfl

/-- The blank-name guard of construction. -/
theorem init_blank {Pix : Type} (c : Codec Pix) (name author : String)
    (tray : Bytes) (h : name = "" ∨ author = "") :
    StickerPack.init c name author tray =
      .error (.pack ⟨"blank names are not allowed"⟩) := by
  unfold StickerPack.init
  rw [if_pos h]

/-- A successful construction keeps the name and author verbatim and starts
with no stickers. -/
theorem init_inv {Pix : Type} (c : Codec Pix) (name author : String)
    (tray : Bytes) (p : StickerPack Pix)
    (h : StickerPack.init c name author tray = .ok p) :
    p.name = name ∧ p.author = author ∧ p.stickers = [] := by
  unfold StickerPack.init at h
  by_cases hb : name = "" ∨ author = ""
  · rw [if_pos hb] at h
    cases h
  · rw [if_neg hb] at h
    cases hdec : openImage c tray with
    | none => rw [hdec] at h; cases h
    | some img =>
        rw [hdec] at h
        cases h
        exact ⟨rfl, rfl, rfl⟩

/-- Iterated addition of decodable stickers succeeds as long as the run
cannot drive the count past 31 (the guard admits an add at count 30). -/
theorem addAll_ok {Pix : Type} (c : Codec Pix) (bs : List Bytes) :
    ∀ p : StickerPack Pix, (∀ b, b ∈ bs → ∃ d, c.decode b = some d) →
      p.stickers.length + bs.length ≤ STICKERS_PER_PACK.2 + 1 →
      ∃ q, addAll c p bs = .ok q ∧
        q.stickers.length = p.stickers.length + bs.length := by
  induction bs with
  | nil =>
      intro p _ _
      exact ⟨p, rfl, by simp⟩
  | cons b rest ih =>
      intro p hdec hlen
      obtain ⟨d, hd⟩ := hdec b (by simp)
      have hle : p.stickers.length ≤ STICKERS_PER_PACK.2 := by
        simp only [List.length_cons] at hlen
        omega
      obtain ⟨q, hq, hql⟩ :=
        ih { p with stickers := p.stickers ++
              [if (d.width, d.height) ≠ STICKER_MAX_PIXELS
                then (⟨d.width, d.height, some d.format, d.pix⟩ : Image Pix).resize c
                  STICKER_MAX_PIXELS
                else ⟨d.width, d.height, some d.format, d.pix⟩] }
          (fun b₂ hb₂ => hdec b₂ (by simp [hb₂]))
          (by simp only [List.length_append, List.length_cons, List.length_nil,
                List.length_singleton] at hlen ⊢; omega)
      refine ⟨q, ?_, ?_⟩
      · unfold addAll
        rw [add_sticker_ok c p b d hle hd]
        exact hq
      · rw [hql]
        simp only [List.length_append, List.length_cons, List.length_nil,
          List.length_singleton]
        omega

/-- Iterated addition of decodable stickers that would drive the count to
32 or beyond eventually trips the capacity guard. -/
theorem addAll_fail {Pix : Type} (c : Codec Pix) (bs : List Bytes) :
    ∀ p : StickerPack Pix, (∀ b, b ∈ bs → ∃ d, c.decode b = some d) →
      p.stickers.length ≤ STICKERS_PER_PACK.2 + 1 →
      STICKERS_PER_PACK.2 + 2 ≤ p.stickers.length + bs.length →
      addAll c p bs = .error (.pack ⟨"too many stickers"⟩) := by
  induction bs with
  | nil =>
      intro p _ h₁ h₂
      simp only [List.length_nil] at h₂
      exact absurd h₂ (by omega)
  | cons b rest ih =>
      intro p hdec h₁ h₂
      by_cases hle : p.stickers.length ≤ STICKERS_PER_PACK.2
      · obtain ⟨d, hd⟩ := hdec b (by simp)
        unfold addAll
        rw [add_sticker_ok c p b d hle hd]
        exact ih _ (fun b₂ hb₂ => hdec b₂ (by simp [hb₂]))
          (by simp only [List.length_append, List.length_cons, List.length_nil,
                List.length_singleton]; omega)
          (by simp only [List.length_append, List.length_cons, List.length_nil,
                List.length_singleton] at h₂ ⊢; omega)
      · unfold addAll
        rw [add_sticker_capacity c p b (by omega)]

/-- What the export loop appends to an archive already holding some
members: exactly the closed-form sticker member list. -/
theorem writeStickers_entries {Pix : Type} (c : Codec Pix) (l : List (Image Pix)) :
    ∀ (zf : ZipFile) (n : Nat),
      (writeStickers c zf l n).entries =
        zf.entries ++ stickerEntryList c zf.compression n l := by
  induction l with
  | nil => intro zf n; simp [writeStickers, stickerEntryList]
  | cons s rest ih =>
      intro zf n
      simp only [writeStickers, stickerEntryList, ih, ZipFile.writeEntry,
        List.append_assoc, List.singleton_append]

/-- The members of an exported archive, in closed form. -/
theorem exportPack_entries {Pix : Type} (c : Codec Pix) (p : StickerPack Pix) :
    (exportPack c p).entries =
      ⟨("author.txt"), .text p.author, ZIP_DEFLATED⟩ ::
      ⟨("title.txt"), .text p.name, ZIP_DEFLATED⟩ ::
      ⟨("0.png"), .bytes p.tray_image_buf, ZIP_DEFLATED⟩ ::
      stickerEntryList c ZIP_DEFLATED 1 p.stickers := by
  unfold exportPack
  rw [writeStickers_entries]
  rfl

/-- Every member of the closed-form sticker list carries the compression
method it was built with. -/
theorem stickerEntryList_compress {Pix : Type} (c : Codec Pix) (comp : Nat)
    (l : List (Image Pix)) :
    ∀ (n : Nat) (e : Entry), e ∈ stickerEntryList c comp n l →
      e.compress_type = comp := by
  induction l with
  | nil => intro n e he; simp [stickerEntryList] at he
  | cons s rest ih =>
      intro n e he
      simp only [stickerEntryList, List.mem_cons] at he
      cases he with
      | inl h => rw [h]
      | inr h => exact ih (n + 1) e h

/-! ### The claims -/

/-- Claim C1 (refuted on the code, as the spec scenario: tray 200 by 200
PNG; stickers 512 by 512 PNG, 300 by 300 WEBP, 64 by 64 PNG): the claim
says a WEBP sticker keeps the `.webp` member name even when it was
resized, so the scenario should yield a member `2.webp`.  The code resizes
the 300 by 300 WEBP sticker with `Image.resize`, which returns an image
whose `format` attribute is `None`; `None` is not in `["PNG", "WEBP"]`, so
the sticker is re-encoded as PNG and the member is named `2.png`.  The
member contents confirm the PNG re-encoding (format code 0, not the WEBP
code 1). -/
theorem claim_C1 :
    scenarioPack.map (fun p => (exportPack testCodec p).entries.map Entry.name) =
      .ok [("author.txt"), ("title.txt"), ("0.png"), ("1.png"), ("2.png"), ("3.png")]
    ∧ scenarioPack.map (fun p => (exportPack testCodec p).entries.map Entry.data) =
      .ok [.text ("Alice"), .text ("Cats"), .bytes (tray200 ++ [0, 96, 96, 0]),
        .bytes [0, 512, 512, 0], .bytes [0, 512, 512, 0], .bytes [0, 512, 512, 0]] :=
  ⟨rfl, rfl⟩

/-- Claim C2 (refuted on the code): constructing with a decodable 200 by
200 PNG tray image leaves `tray_image_buf` holding the original bytes with
the 96 by 96 PNG re-encoding appended after them (the save runs at the
stream position left by loading, with no seek or truncate), so the bytes
exported as `0.png` are not the PNG re-encoding alone, and decoding them
yields the original 200 by 200 image, not a 96 by 96 one. -/
theorem claim_C2 :
    (StickerPack.init testCodec ("Cats") ("Alice") tray200).map
        (fun p => (p.tray_image_buf,
          (testCodec.decode p.tray_image_buf).map fun d => (d.width, d.height))) =
      .ok (tray200 ++ [0, 96, 96, 0], some (200, 200))
    ∧ tray200 ++ [0, 96, 96, 0] ≠ [0, 96, 96, 0]
    ∧ (200, 200) ≠ ((96 : Nat), (96 : Nat)) :=
  ⟨rfl, by decide, by decide⟩

/-- Claim C8: export mutates nothing — in state-passing form the pack
handed back is the argument itself — and exporting the same unmodified
pack a second time to a fresh sink yields an identical archive (same
member names, order and contents). -/
theorem claim_C8 {Pix : Type} (c : Codec Pix) (p : StickerPack Pix) :
    (exportTo c p).2 = p ∧ (exportTo c ((exportTo c p).2)).1 = (exportTo c p).1 :=
  ⟨rfl, rfl⟩

/-- Claim C3: `add_sticker` raises `CapacityError` exactly when the count
before the call already exceeds `STICKERS_PER_PACK[1] = 30`, succeeds by
appending one sticker whenever the count is at most 30 (and the bytes
decode), and hence, starting from an empty pack, any run of at most 31
decodable additions succeeds — in particular adding exactly up to the
ceiling — while a run of 32 or more eventually raises `CapacityError`. -/
theorem claim_C3 {Pix : Type} (c : Codec Pix) (p : StickerPack Pix) (data : Bytes)
    (bs : List Bytes) :
    (p.add_sticker c data = .error (.pack ⟨"too many stickers"⟩) ↔
      STICKERS_PER_PACK.2 < p.stickers.length)
    ∧ (∀ d : DecodedImage Pix, c.decode data = some d →
        p.stickers.length ≤ STICKERS_PER_PACK.2 →
        ∃ img, p.add_sticker c data = .ok { p with stickers := p.stickers ++ [img] })
    ∧ (p.stickers = [] → (∀ b, b ∈ bs → ∃ d, c.decode b = some d) →
        (bs.length ≤ STICKERS_PER_PACK.2 + 1 →
          ∃ q, addAll c p bs = .ok q ∧ q.stickers.length = bs.length)
        ∧ (STICKERS_PER_PACK.2 + 2 ≤ bs.length →
          addAll c p bs = .error (.pack ⟨"too many stickers"⟩))) := by
  refine ⟨?_, ?_, ?_⟩
  · constructor
    · intro h
      by_contra hlen
      push_neg at hlen
      cases hd : c.decode data with
      | none => rw [add_sticker_decode_none c p data hlen hd] at h; cases h
      | some d => rw [add_sticker_ok c p data d hlen hd] at h; cases h
    · intro h
      exact add_sticker_capacity c p data h
  · intro d hd hlen
    exact ⟨_, add_sticker_ok c p data d hlen hd⟩
  · intro hnil hdec
    constructor
    · intro hlen
      obtain ⟨q, hq, hql⟩ := addAll_ok c bs p hdec (by rw [hnil]; simpa using hlen)
      exact ⟨q, hq, by rw [hql, hnil]; simp⟩
    · intro hlen
      exact addAll_fail c bs p hdec (by rw [hnil]; simp) (by rw [hnil]; simpa using hlen)

/-- Claim C4: construction raises `ValidationError` exactly when the name
or the author is the empty string (whitespace-only strings pass), and when
it does, no decoding of the tray bytes is attempted: the outcome is the
same for every codec and every tray byte string. -/
theorem claim_C4 {Pix : Type} (c c₂ : Codec Pix) (name author : String)
    (tray tray₂ : Bytes) :
    (StickerPack.init c name author tray =
        .error (.pack ⟨"blank names are not allowed"⟩) ↔ (name = "" ∨ author = ""))
    ∧ ((name = "" ∨ author = "") →
        StickerPack.init c name author tray = StickerPack.init c₂ name author tray₂) := by
  constructor
  · constructor
    · intro h
      by_contra hb
      unfold StickerPack.init at h
      rw [if_neg hb] at h
      cases hdec : openImage c tray with
      | none => rw [hdec] at h; cases h
      | some img => rw [hdec] at h; cases h
    · intro hb
      exact init_blank c name author tray hb
  · intro hb
    rw [init_blank c name author tray hb, init_blank c₂ name author tray₂ hb]

/-- Claim C5: exporting a pack with `N` stickers writes exactly the members
`author.txt`, `title.txt`, `0.png` (always the tray image buffer), and then
`1.<ext>` through `N.<ext>` in sticker insertion order, every member with
the deflate compression method. -/
theorem claim_C5 {Pix : Type} (c : Codec Pix) (p : StickerPack Pix) :
    (exportPack c p).entries =
      ⟨("author.txt"), .text p.author, ZIP_DEFLATED⟩ ::
      ⟨("title.txt"), .text p.name, ZIP_DEFLATED⟩ ::
      ⟨("0.png"), .bytes p.tray_image_buf, ZIP_DEFLATED⟩ ::
      stickerEntryList c ZIP_DEFLATED 1 p.stickers
    ∧ (∀ e, e ∈ (exportPack c p).entries → e.compress_type = ZIP_DEFLATED) := by
  refine ⟨exportPack_entries c p, ?_⟩
  intro e he
  rw [exportPack_entries c p] at he
  simp only [List.mem_cons] at he
  rcases he with h | h | h | h
  · rw [h]
  · rw [h]
  · rw [h]
  · exact stickerEntryList_compress c ZIP_DEFLATED p.stickers 1 e h

/-- Claim C6: for a successfully constructed pack, looking up `author.txt`
and `title.txt` in the exported archive and reading them as text gives back
exactly the author and name strings passed at construction. -/
theorem claim_C6 {Pix : Type} (c : Codec Pix) (name author : String) (tray : Bytes)
    (p : StickerPack Pix) (h : StickerPack.init c name author tray = .ok p) :
    ((exportPack c p).entries.find? fun e => e.name == ("author.txt")).map Entry.data =
      some (.text author)
    ∧ ((exportPack c p).entries.find? fun e => e.name == ("title.txt")).map Entry.data =
      some (.text name) := by
  obtain ⟨hn, ha, -⟩ := init_inv c name author tray p h
  rw [exportPack_entries c p, hn, ha]
  exact ⟨rfl, rfl⟩

/-- Claim C7: every successful `add_sticker` stores a sticker whose size is
exactly `STICKER_MAX_PIXELS` (512 by 512), whether or not the decoded input
already had that size. -/
theorem claim_C7 {Pix : Type} (c : Codec Pix) (p q : StickerPack Pix) (data : Bytes)
    (h : p.add_sticker c data = .ok q) :
    ∃ img, q.stickers = p.stickers ++ [img] ∧
      img.width = STICKER_MAX_PIXELS.1 ∧ img.height = STICKER_MAX_PIXELS.2 := by
  unfold StickerPack.add_sticker at h
  by_cases hc : ¬ p.stickers.length ≤ STICKERS_PER_PACK.2
  · rw [if_pos hc] at h
    cases h
  · rw [if_neg hc] at h
    cases hdec : openImage c data with
    | none => rw [hdec] at h; cases h
    | some img =>
        rw [hdec] at h
        cases h
        by_cases hsz : (img.width, img.height) ≠ STICKER_MAX_PIXELS
        · rw [if_pos hsz]
          exact ⟨_, rfl, rfl, rfl⟩
        · rw [if_neg hsz]
          have heq : (img.width, img.height) = STICKER_MAX_PIXELS := not_not.mp hsz
          exact ⟨img, rfl, congrArg Prod.fst heq, congrArg Prod.snd heq⟩

/-- Claim C9: the error raised by construction on a blank name and the one
raised by `add_sticker` over capacity are values of the one concrete
exception type `StickerPackError`, told apart only by their messages. -/
theorem claim_C9 {Pix : Type} (c c₂ : Codec Pix) (author : String) (tray data : Bytes)
    (p : StickerPack Pix) (h : STICKERS_PER_PACK.2 < p.stickers.length) :
    StickerPack.init c ("") author tray =
      .error (.pack ⟨"blank names are not allowed"⟩)
    ∧ p.add_sticker c₂ data = .error (.pack ⟨"too many stickers"⟩)
    ∧ (⟨"blank names are not allowed"⟩ : StickerPackError) ≠ ⟨"too many stickers"⟩ :=
  ⟨init_blank c ("") author tray (Or.inl rfl),
    add_sticker_capacity c₂ p data h,
    by decide⟩

/-- Claim C10: `add_sticker` touches only the sticker sequence — a success
appends exactly one element and leaves the name, the author, the tray
buffer and all earlier stickers as they were; over capacity it raises
without consulting the codec or the input bytes at all, so nothing is
decoded and no state changes. -/
theorem claim_C10 {Pix : Type} (c : Codec Pix) (p : StickerPack Pix) (data : Bytes) :
    (∀ q, p.add_sticker c data = .ok q →
      q.name = p.name ∧ q.author = p.author ∧ q.tray_image_buf = p.tray_image_buf
      ∧ ∃ img, q.stickers = p.stickers ++ [img])
    ∧ (STICKERS_PER_PACK.2 < p.stickers.length →
      ∀ (c₂ : Codec Pix) (data₂ : Bytes),
        p.add_sticker c₂ data₂ = .error (.pack ⟨"too many stickers"⟩)) := by
  constructor
  · intro q h
    unfold StickerPack.add_sticker at h
    by_cases hc : ¬ p.stickers.length ≤ STICKERS_PER_PACK.2
    · rw [if_pos hc] at h
      cases h
    · rw [if_neg hc] at h
      cases hdec : openImage c data with
      | none => rw [hdec] at h; cases h
      | some img =>
          rw [hdec] at h
          cases h
          exact ⟨rfl, rfl, rfl, _, rfl⟩
  · intro h c₂ data₂
    exact add_sticker_capacity c₂ p data₂ h

/-! ### Witnesses -/

/-- Witness for claim C3 at the empty pack with a run of 32 decodable
512 by 512 PNG inputs. -/
theorem claim_C3_witness :
    (emptyPack.add_sticker testCodec png512s =
        .error (.pack ⟨"too many stickers"⟩) ↔
      STICKERS_PER_PACK.2 < emptyPack.stickers.length)
    ∧ addAll testCodec emptyPack (List.replicate 32 png512s) =
        .error (.pack ⟨"too many stickers"⟩) := by
  refine ⟨(claim_C3 testCodec emptyPack png512s (List.replicate 32 png512s)).1, ?_⟩
  refine ((claim_C3 testCodec emptyPack png512s (List.replicate 32 png512s)).2.2
    rfl ?_).2 (by decide)
  intro b hb
  rw [List.eq_of_mem_replicate hb]
  exact ⟨_, rfl⟩

/-- Witness for claim C4: a blank name with a non-blank author fails
validation, and the outcome is the same under a codec that rejects every
input — no decoding happens. -/
theorem claim_C4_witness :
    (StickerPack.init testCodec ("") ("Bob") tray200 =
        .error (.pack ⟨"blank names are not allowed"⟩) ↔
      ((("") : String) = "" ∨ (("Bob") : String) = ""))
    ∧ StickerPack.init testCodec ("") ("Bob") tray200 =
        StickerPack.init failCodec ("") ("Bob") [] :=
  ⟨(claim_C4 testCodec failCodec ("") ("Bob") tray200 []).1,
    (claim_C4 testCodec failCodec ("") ("Bob") tray200 [] ).2 (Or.inl rfl)⟩

/-- Witness for claim C5 at a concrete pack with no stickers; the
compression conjunct is applied to the `author.txt` member. -/
theorem claim_C5_witness :
    (exportPack testCodec emptyPack).entries =
      ⟨("author.txt"), .text ("Alice"), ZIP_DEFLATED⟩ ::
      ⟨("title.txt"), .text ("Cats"), ZIP_DEFLATED⟩ ::
      ⟨("0.png"), .bytes [], ZIP_DEFLATED⟩ ::
      stickerEntryList testCodec ZIP_DEFLATED 1 []
    ∧ (⟨("author.txt"), .text ("Alice"), ZIP_DEFLATED⟩ : Entry).compress_type =
        ZIP_DEFLATED :=
  ⟨(claim_C5 testCodec emptyPack).1,
    (claim_C5 testCodec emptyPack).2 ⟨("author.txt"), .text ("Alice"), ZIP_DEFLATED⟩
      (by decide)⟩

/-- Witness for claim C6 at the concretely constructed `trayPack`. -/
theorem claim_C6_witness :
    ((exportPack testCodec trayPack).entries.find?
        fun e => e.name == ("author.txt")).map Entry.data = some (.text ("Alice"))
    ∧ ((exportPack testCodec trayPack).entries.find?
        fun e => e.name == ("title.txt")).map Entry.data = some (.text ("Cats")) :=
  claim_C6 testCodec ("Cats") ("Alice") tray200 trayPack rfl

/-- Witness for claim C7: adding the 300 by 300 WEBP input to the empty
pack stores a 512 by 512 sticker. -/
theorem claim_C7_witness :
    ∃ img, pack1.stickers = emptyPack.stickers ++ [img] ∧
      img.width = STICKER_MAX_PIXELS.1 ∧ img.height = STICKER_MAX_PIXELS.2 :=
  claim_C7 testCodec emptyPack pack1 webp300 rfl

/-- Witness for claim C9 at a pack already holding 31 stickers. -/
theorem claim_C9_witness :
    StickerPack.init testCodec ("") ("Bob") tray200 =
      .error (.pack ⟨"blank names are not allowed"⟩)
    ∧ fullPack.add_sticker testCodec webp300 =
      .error (.pack ⟨"too many stickers"⟩)
    ∧ (⟨"blank names are not allowed"⟩ : StickerPackError) ≠ ⟨"too many stickers"⟩ :=
  claim_C9 testCodec testCodec ("Bob") tray200 webp300 fullPack (by decide)

/-- Witness for claim C10: a concrete successful add appends one sticker
and leaves everything else unchanged, and a pack over capacity raises even
under a codec that rejects every input. -/
theorem claim_C10_witness :
    (pack1.name = emptyPack.name ∧ pack1.author = emptyPack.author
      ∧ pack1.tray_image_buf = emptyPack.tray_image_buf
      ∧ ∃ img, pack1.stickers = emptyPack.stickers ++ [img])
    ∧ fullPack.add_sticker failCodec [] = .error (.pack ⟨"too many stickers"⟩) :=
  ⟨(claim_C10 testCodec emptyPack webp300).1 pack1 rfl,
    (claim_C10 failCodec fullPack []).2 (by decide) failCodec []⟩

end Adhesive
